import Mathlib

/-!
# Verification of `watch_dial_pattern_generator.py`

A shallow embedding of the dial-pattern generator (the `DialPatternGenerator`
Inkscape extension) together with proofs settling the frozen claims about it.

Modelling conventions:
* Python floats are embedded as exact rationals (`ℚ`) wherever the source does
  no trigonometry, and as real numbers (`ℝ`) where `math.sin`/`math.cos` are
  involved.  Decimal literals such as `0.10`, `1e-9`, `2.2` are the exact
  rationals they denote in the source text.
* The `while` loop of `pattern_concentric` can fail to terminate (for
  `spacing ≤ 0`); it is embedded with explicit fuel, `none` meaning the loop
  has not terminated within the given fuel.
* `random.Random(seed)` is a deterministic pseudo-random stream fixed by the
  seed.  It is embedded as a `Rng` structure giving the result of the n-th
  draw; a fixed seed corresponds to a fixed `Rng` value, and the draw counter
  is threaded through the generator exactly in source order.
* The host SVG document is read only for its center and its linear
  mm→user-unit scale; it is embedded as a `Doc` record.
-/

namespace WatchDial

/-- Python `int(x)` applied to a float: truncation toward zero. -/
def pyint {α : Type} [LinearOrderedField α] [FloorRing α] (x : α) : ℤ :=
  if 0 ≤ x then ⌊x⌋ else ⌈x⌉

/-- The body of `pattern_concentric`'s `while` loop, with explicit fuel:
starting from radius `r`, emit `r` while `r ≤ r_outer + 1e-9` and step by
`spacing`.  `none` means the fuel ran out before the loop condition failed,
i.e. the source loop has not terminated within `fuel` iterations. -/
def concRadiiFuel {α : Type} [LinearOrderedField α] :
    ℕ → α → α → α → Option (List α)
  | 0, _, _, _ => none
  | fuel + 1, r, r_outer, spacing =>
    if r ≤ r_outer + 1 / 1000000000 then
      match concRadiiFuel fuel (r + spacing) r_outer spacing with
      | some rest => some (r :: rest)
      | none => none
    else
      some []

/-- The list of perpendicular line offsets of one `add_set` family in
`pattern_crosshatch`: `count = int(size/spacing) + 3`, then
`for i in range(-count // 2, count // 2 + 1): off = i * spacing`
(Python `//` is floor division; `range` is empty when its end is not above its
start).  Note the source would raise `ZeroDivisionError` at `spacing = 0`;
Lean's `x / 0 = 0` convention differs there, and no claim touches that case. -/
def crossOffsets {α : Type} [LinearOrderedField α] [FloorRing α]
    (size spacing : α) : List α :=
  let count : ℤ := pyint (size / spacing) + 3
  let start : ℤ := Int.fdiv (-count) 2
  let stop : ℤ := Int.fdiv count 2 + 1
  (List.range (stop - start).toNat).map fun (j : ℕ) =>
    (((start + (j : ℤ)) : ℤ) : α) * spacing

/-- Per-layer stroke width, line 403 of the source:
`sw = base_stroke * (float(self.options.stroke_decay) ** i)`. -/
def layerStroke {α : Type} [LinearOrderedField α] (base decay : α) (i : ℕ) : α :=
  base * decay ^ i

/-- Per-layer opacity, lines 404–405 of the source:
`op = max(0.02, min(1.0, base_opacity * (opacity_decay ** i)))`. -/
def layerOpacity {α : Type} [LinearOrderedField α] (base decay : α) (i : ℕ) : α :=
  max (1 / 50) (min 1 (base * decay ^ i))

/-- The auto-complex resolved point count for a guilloché layer whose plan
entry does not fix `points`, line 395 of the source:
`overrides["points"] = max(800, int(p0 * (1.0 + 0.10 * i)))`. -/
def pointsAuto (p0 : ℤ) (i : ℕ) : ℤ :=
  max 800 (pyint ((p0 : ℚ) * (1 + (1 / 10) * (i : ℚ))))

/-- The stroke style attached to a leaf shape.  The source always sets
`fill: none`; only the stroke attributes vary. -/
structure ShapeStyle where
  stroke : String
  strokeWidth : ℝ
  strokeOpacity : ℝ
  linecap : Option String := none
  linejoin : Option String := none

/-- A node of the generated SVG geometry tree: a circle, a path (the source
emits `M x,y L x,y …` strings; embedded as the list of points of the
polyline), or a group with an id, an optional rotation transform
`rotate(deg, cx, cy)` and an optional `clip-path` reference id. -/
inductive Node where
  | circle (cx cy r : ℝ) (style : ShapeStyle)
  | path (pts : List (ℝ × ℝ)) (style : ShapeStyle)
  | group (id : String) (transform : Option (ℝ × ℝ × ℝ))
      (clipRef : Option String) (children : List Node)

/-- `polar(cx, cy, r, ang)`: angle in degrees, clockwise from 12 o'clock;
`a = math.radians(ang)`, point `(cx + r*sin a, cy - r*cos a)`. -/
noncomputable def polar (cx cy r angDeg : ℝ) : ℝ × ℝ :=
  let a := angDeg * (Real.pi / 180)
  (cx + r * Real.sin a, cy - r * Real.cos a)

/-- `pattern_concentric`: circles at the radii of the `while` loop (fuelled;
`none` = the source loop does not terminate within the fuel). -/
noncomputable def patternConcentric (fuel : ℕ) (cx cy r_outer r_inner spacing strokeW : ℝ)
    (color : String) (opacity : ℝ) : Option (List Node) :=
  (concRadiiFuel fuel (max 0 r_inner) r_outer spacing).map
    (List.map fun r => Node.circle cx cy r
      { stroke := color, strokeWidth := strokeW, strokeOpacity := opacity })

/-- `pattern_sunburst`: `rays = max(4, int(rays))`, one segment per ray from
`r_inner` to `r_outer` at `i * 360/rays` degrees, rounded line cap. -/
noncomputable def patternSunburst (cx cy r_outer r_inner : ℝ) (rays : ℤ)
    (strokeW : ℝ) (color : String) (opacity : ℝ) : List Node :=
  let raysC := (max 4 rays).toNat
  let step : ℝ := 360 / (raysC : ℝ)
  (List.range raysC).map fun i =>
    let ang := (i : ℝ) * step
    Node.path [polar cx cy r_inner ang, polar cx cy r_outer ang]
      { stroke := color, strokeWidth := strokeW, strokeOpacity := opacity,
        linecap := some ("round") }

/-- One `add_set` family of `pattern_crosshatch`: direction
`(cos θ, sin θ)`, perpendicular `(-sin θ, cos θ)`, one segment of length
`size` per offset in `crossOffsets size spacing`. -/
noncomputable def crossFamily (cx cy size spacing thetaDeg strokeW : ℝ)
    (color : String) (opacity : ℝ) : List Node :=
  let half := size / 2
  let theta := thetaDeg * (Real.pi / 180)
  let ux := Real.cos theta
  let uy := Real.sin theta
  let vx := -uy
  let vy := ux
  (crossOffsets size spacing).map fun off =>
    let px := cx + off * vx
    let py := cy + off * vy
    Node.path [(px - half * ux, py - half * uy), (px + half * ux, py + half * uy)]
      { stroke := color, strokeWidth := strokeW, strokeOpacity := opacity,
        linecap := some ("round") }

/-- `pattern_crosshatch`: one family at `angle_deg` over a square of side
`size = r_outer * 2.2`, plus a second at `angle_deg + 90` when `double`. -/
noncomputable def patternCrosshatch (cx cy r_outer spacing angleDeg : ℝ)
    (double : Bool) (strokeW : ℝ) (color : String) (opacity : ℝ) : List Node :=
  let size := r_outer * 2.2
  crossFamily cx cy size spacing angleDeg strokeW color opacity ++
    (if double then crossFamily cx cy size spacing (angleDeg + 90) strokeW color opacity
     else [])

/-- `pattern_guilloche`'s clamp `lobes = max(2, int(lobes))`. -/
def guilLobes (lobes : ℤ) : ℤ := max 2 lobes

/-- `pattern_guilloche`'s clamp `points = max(200, int(points))` (always
positive, kept as a natural number for indexing). -/
def guilPoints (points : ℤ) : ℕ := (max 200 points).toNat

/-- The sample radius of `pattern_guilloche` at sample index `i`:
`base = max(0, r_outer - amplitude)`, `t = 2π * i / points`,
`r = base + amplitude * cos(lobes * t)` (with the clamped lobes/points). -/
noncomputable def guilSampleR (r_outer : ℝ) (lobes : ℤ) (amplitude : ℝ)
    (points : ℤ) (i : ℕ) : ℝ :=
  let base := max 0 (r_outer - amplitude)
  let t := (2 * Real.pi) * ((i : ℝ) / (guilPoints points : ℝ))
  base + amplitude * Real.cos ((guilLobes lobes : ℝ) * t)

/-- The sample points of `pattern_guilloche`: `points + 1` samples at
`t = 2π * i / points`, each converted by `polar` at `math.degrees(t)`. -/
noncomputable def guillochePts (cx cy r_outer : ℝ) (lobes : ℤ) (amplitude : ℝ)
    (points : ℤ) : List (ℝ × ℝ) :=
  (List.range (guilPoints points + 1)).map fun (i : ℕ) =>
    let t := (2 * Real.pi) * ((i : ℝ) / (guilPoints points : ℝ))
    polar cx cy (guilSampleR r_outer lobes amplitude points i) (t * (180 / Real.pi))

/-- `pattern_guilloche`: a single open polyline through all sample points,
rounded line join. -/
noncomputable def patternGuilloche (cx cy r_outer : ℝ) (lobes : ℤ)
    (amplitude : ℝ) (points : ℤ) (strokeW : ℝ) (color : String)
    (opacity : ℝ) : Node :=
  Node.path (guillochePts cx cy r_outer lobes amplitude points)
    { stroke := color, strokeWidth := strokeW, strokeOpacity := opacity,
      linejoin := some ("round") }

/-- The extension's option record (`add_arguments`); float options as exact
rationals, int options as integers. -/
structure Options where
  dial_diameter_mm : ℚ := 28.5
  draw_outline : Bool := true
  outline_stroke_mm : ℚ := 0.12
  outline_compensate_stroke : Bool := true
  clip_to_circle : Bool := true
  inner_radius_mm : ℚ := 0
  pattern_type : String := "guilloche"
  stroke_mm : ℚ := 0.10
  stroke_color : String := "#000000"
  stroke_opacity : ℚ := 0.35
  ring_spacing_mm : ℚ := 0.6
  rays : ℤ := 120
  lobes : ℤ := 12
  amplitude_mm : ℚ := 1.2
  points : ℤ := 1200
  hatch_spacing_mm : ℚ := 0.7
  hatch_angle_deg : ℚ := 35
  hatch_double : Bool := true
  auto_complex : Bool := false
  complex_preset : String := "rosette_stack"
  layers : ℤ := 4
  seed : ℤ := 1
  rotate_jitter_deg : ℚ := 6
  opacity_decay : ℚ := 0.75
  stroke_decay : ℚ := 0.85
  lobe_jitter : ℤ := 10
  amp_decay : ℚ := 0.70
  group_name : String := "dial-pattern"

/-- The host SVG document as far as the generator reads it: the document
center (`get_doc_center`) and the linear mm→user-unit scale (`svg.unittouu`;
the source falls back to `96/25.4` units per mm when conversion fails). -/
structure Doc where
  cx : ℝ
  cy : ℝ
  uuPerMm : ℝ

/-- `mm_to_uu(svg, mm)`, the document's linear unit conversion. -/
noncomputable def mmToUu (doc : Doc) (mm : ℝ) : ℝ := mm * doc.uuPerMm

/-- Model of `random.Random(seed)`: a deterministic stream of draw results.
`randint n lo hi` is the result of the `(n+1)`-th draw made by this generator
instance when that draw is `rnd.randint(lo, hi)`, and `uniform` likewise for
`rnd.uniform(lo, hi)`.  A fixed seed determines the whole stream, so "two
runs with the same seed" is modelled as two runs given the same `Rng` value;
the draw counter is threaded through the layers in source order. -/
structure Rng where
  randint : ℕ → ℤ → ℤ → ℤ
  uniform : ℕ → ℝ → ℝ → ℝ

/-- The `overrides` dictionary consumed by `_draw_one`. -/
structure Ov where
  ring_spacing : Option ℝ := none
  rays : Option ℤ := none
  lobes : Option ℤ := none
  amplitude : Option ℝ := none
  points : Option ℤ := none
  hatch_spacing : Option ℝ := none
  hatch_angle : Option ℝ := none
  hatch_double : Option Bool := none

/-- Fuel for the `pattern_concentric` loop as invoked by the composition
engine: enough iterations when `spacing > 0` (the loop stops after at most
`⌈(r_outer + ε - r0)/spacing⌉ + 1` iterations), and a single unit when
`spacing ≤ 0`, which distinguishes the immediately terminating case
(`r0 > r_outer + ε`, zero circles) from the diverging one (`none`). -/
noncomputable def concFuel (r0 r_outer spacing : ℝ) : ℕ :=
  if spacing ≤ 0 then 1
  else (max 1 (⌈(r_outer + 1 / 1000000000 - r0) / spacing⌉ + 2)).toNat

/-- `DialPatternGenerator._draw_one`: dispatch on the pattern-type string
(anything other than the three named kinds falls through to guilloché),
reading each parameter from the overrides dictionary with the corresponding
option as default.  `none` only for a non-terminating concentric loop. -/
noncomputable def drawOne (doc : Doc) (o : Options)
    (cx cy r_outer r_inner : ℝ) (ptype : String) (strokeW : ℝ)
    (color : String) (opacity : ℝ) (ov : Ov) : Option (List Node) :=
  if ptype = "concentric" then
    let spacing := ov.ring_spacing.getD (mmToUu doc (o.ring_spacing_mm : ℝ))
    patternConcentric (concFuel (max 0 r_inner) r_outer spacing)
      cx cy r_outer r_inner spacing strokeW color opacity
  else if ptype = "sunburst" then
    some (patternSunburst cx cy r_outer r_inner (ov.rays.getD o.rays)
      strokeW color opacity)
  else if ptype = "crosshatch" then
    some (patternCrosshatch cx cy r_outer
      (ov.hatch_spacing.getD (mmToUu doc (o.hatch_spacing_mm : ℝ)))
      (ov.hatch_angle.getD (o.hatch_angle_deg : ℝ))
      (ov.hatch_double.getD o.hatch_double) strokeW color opacity)
  else
    some [patternGuilloche cx cy r_outer (ov.lobes.getD o.lobes)
      (ov.amplitude.getD (mmToUu doc (o.amplitude_mm : ℝ)))
      (ov.points.getD o.points) strokeW color opacity]

/-- Python `str.strip()`: drop leading and trailing whitespace (embedded
over the character list). -/
def pyStrip (s : String) : String :=
  String.mk
    (((s.data.dropWhile Char.isWhitespace).reverse.dropWhile Char.isWhitespace).reverse)

/-- Python `str.lower()` (embedded over the character list; the preset names
the source compares against are ASCII). -/
def pyLower (s : String) : String := String.mk (s.data.map Char.toLower)

/-- `preset = (self.options.complex_preset or "rosette_stack").strip().lower()`
(Python `or` picks the default when the option string is empty). -/
def presetOf (o : Options) : String :=
  pyLower (pyStrip (if o.complex_preset = "" then "rosette_stack" else o.complex_preset))

/-- The effective layer count: `layers = max(1, int(self.options.layers))`,
raised to 4 inside the `breguet` and `modern` branches
(`layers = max(layers, 4)`). -/
def layersResolved (o : Options) : ℕ :=
  let l := (max 1 o.layers).toNat
  if presetOf o = "breguet" ∨ presetOf o = "modern" then max l 4 else l

/-- The preset plan (lines 352–375): a list of
(pattern-type, override-builder) entries.  An override builder takes the
layer index and the current draw counter and returns the overrides dictionary
together with the advanced counter (the `breguet`/`modern` guilloché entries
consume one `randint` draw when invoked). -/
noncomputable def planFor (doc : Doc) (o : Options) (rng : Rng) (layers : ℕ) :
    List (String × (ℕ → ℕ → Ov × ℕ)) :=
  let preset := presetOf o
  if preset = "breguet" then
    [("concentric", fun _ c => ({ ring_spacing := some (mmToUu doc 0.45) }, c)),
     ("guilloche", fun _ c =>
       ({ lobes := some (12 + rng.randint c (-2) 2),
          amplitude := some (mmToUu doc 1.0),
          points := some (max 1600 o.points) }, c + 1)),
     ("sunburst", fun _ c => ({ rays := some 240 }, c)),
     ("guilloche", fun _ c =>
       ({ lobes := some (36 + rng.randint c (-6) 6),
          amplitude := some (mmToUu doc 0.28),
          points := some (max 2400 o.points) }, c + 1))]
  else if preset = "modern" then
    [("sunburst", fun _ c => ({ rays := some 300 }, c)),
     ("crosshatch", fun _ c =>
       ({ hatch_spacing := some (mmToUu doc 0.6), hatch_angle := some 35,
          hatch_double := some true }, c)),
     ("guilloche", fun _ c =>
       ({ lobes := some (18 + rng.randint c (-3) 3),
          amplitude := some (mmToUu doc 0.75),
          points := some (max 2000 o.points) }, c + 1)),
     ("guilloche", fun _ c =>
       ({ lobes := some (48 + rng.randint c (-8) 8),
          amplitude := some (mmToUu doc 0.22),
          points := some (max 3000 o.points) }, c + 1))]
  else if preset = "pocketwatch" then
    List.replicate layers ("guilloche", fun _ c => ({}, c))
  else
    List.replicate layers ("guilloche", fun _ c => ({}, c))

/-- Lines 383–395: for a guilloché layer, jitter the lobes (one `randint`
draw) unless the plan fixed them, apply the amplitude decay unless fixed,
and resolve the point count unless fixed. -/
noncomputable def resolveGuilloche (doc : Doc) (o : Options) (rng : Rng)
    (i ctr : ℕ) (ov : Ov) : Ov × ℕ :=
  let baseLobes := ov.lobes.getD o.lobes
  let baseAmp := ov.amplitude.getD (mmToUu doc (o.amplitude_mm : ℝ))
  let step1 : Ov × ℕ :=
    if ov.lobes.isNone then
      ({ ov with lobes := some (max 2 (baseLobes +
          rng.randint ctr (-o.lobe_jitter) o.lobe_jitter)) }, ctr + 1)
    else (ov, ctr)
  let ov1 := step1.1
  let ov2 := if ov1.amplitude.isNone then
      { ov1 with amplitude := some (baseAmp * (o.amp_decay : ℝ) ^ i) }
    else ov1
  let ov3 := if ov2.points.isNone then
      { ov2 with points := some (pointsAuto o.points i) }
    else ov2
  (ov3, step1.2)

/-- Lines 398–400: for a crosshatch layer, jitter the hatch angle (one
`uniform` draw) unless the plan fixed it. -/
noncomputable def resolveCrosshatch (o : Options) (rng : Rng) (ctr : ℕ)
    (ov : Ov) : Ov × ℕ :=
  if ov.hatch_angle.isNone then
    ({ ov with hatch_angle := some ((o.hatch_angle_deg : ℝ) +
        rng.uniform ctr (-5) 5) }, ctr + 1)
  else (ov, ctr)

/-- The body of `for i in range(layers)` (lines 377–411): resolve the plan
entry `i % len(plan)`, build the overrides (consuming draws in source order:
the plan entry's own draws, then lobe jitter for guilloché, then hatch-angle
jitter for crosshatch, then the rotation draw), compute the per-layer stroke
and opacity, and wrap the generated shapes in a `layer-(i+1)` group with a
rotation transform when `abs(rot) > 1e-9`.  `rem` is the number of layers
still to produce and `ctr` the current draw counter. -/
noncomputable def autoLoop (doc : Doc) (o : Options) (rng : Rng)
    (cx cy r_outer r_inner baseStroke baseOpacity : ℝ) (pid : String)
    (plan : List (String × (ℕ → ℕ → Ov × ℕ))) :
    ℕ → ℕ → ℕ → Option (List Node)
  | _, 0, _ => some []
  | i, rem + 1, ctr =>
    let pe := plan.getD (i % plan.length) ("guilloche", fun _ c => ({}, c))
    let ptype := pe.1
    let s0 := pe.2 i ctr
    let s1 := if ptype = "guilloche" then
        resolveGuilloche doc o rng i s0.2 s0.1 else s0
    let s2 := if ptype = "crosshatch" then
        resolveCrosshatch o rng s1.2 s1.1 else s1
    let sw := layerStroke baseStroke ((o.stroke_decay : ℚ) : ℝ) i
    let op := layerOpacity baseOpacity ((o.opacity_decay : ℚ) : ℝ) i
    let rot := rng.uniform s2.2 (-((o.rotate_jitter_deg : ℚ) : ℝ))
      ((o.rotate_jitter_deg : ℚ) : ℝ)
    match drawOne doc o cx cy r_outer r_inner ptype sw o.stroke_color op s2.1 with
    | none => none
    | some shapes =>
      let lg := Node.group (pid ++ "-layer-" ++ toString (i + 1))
        (if |rot| > 1 / 1000000000 then some (rot, cx, cy) else none) none shapes
      match autoLoop doc o rng cx cy r_outer r_inner baseStroke baseOpacity
          pid plan (i + 1) rem (s2.2 + 1) with
      | none => none
      | some rest => some (lg :: rest)

/-- The list of children of the pattern group: the single-layer `_draw_one`
call when auto-complex is off, otherwise the per-layer groups produced by the
multi-layer loop.  `none` exactly when a concentric layer diverges. -/
noncomputable def effectLayers (doc : Doc) (o : Options) (rng : Rng) : Option (List Node) :=
  let cx := doc.cx
  let cy := doc.cy
  let dial_r_mm := ((o.dial_diameter_mm : ℝ) -
    (if o.outline_compensate_stroke then (o.outline_stroke_mm : ℝ) else 0)) / 2
  let r_outer := mmToUu doc dial_r_mm
  let r_inner := mmToUu doc (max 0 (o.inner_radius_mm : ℝ))
  let baseStroke := mmToUu doc (o.stroke_mm : ℝ)
  let baseOpacity := ((o.stroke_opacity : ℚ) : ℝ)
  if o.auto_complex then
    let layers := layersResolved o
    let plan := planFor doc o rng layers
    autoLoop doc o rng cx cy r_outer r_inner baseStroke baseOpacity
      ((if o.group_name = "" then "dial-pattern" else o.group_name) ++ "-pattern")
      plan 0 layers 0
  else
    drawOne doc o cx cy r_outer r_inner o.pattern_type baseStroke
      o.stroke_color baseOpacity {}

/-- Wrap the pattern-group children into the output tree (lines 304–318 and
413–425): the root group `g` (id = `group_name or "dial-pattern"`) holds the
pattern group — carrying the `clip-path` reference
`gid + "-clip-" + uuid4().hex[:6]` when clipping is on — followed by the
outline circle at `r_outer` when `draw_outline` is set.  `uuidHex6` is the
6-character fragment of the freshly drawn uuid. -/
noncomputable def assembleRoot (doc : Doc) (o : Options) (uuidHex6 : String)
    (layerNodes : List Node) : Node :=
  let gid := if o.group_name = "" then "dial-pattern" else o.group_name
  let clipRef := if o.clip_to_circle then some (gid ++ "-clip-" ++ uuidHex6) else none
  let dial_r_mm := ((o.dial_diameter_mm : ℝ) -
    (if o.outline_compensate_stroke then (o.outline_stroke_mm : ℝ) else 0)) / 2
  let r_outer := mmToUu doc dial_r_mm
  let outline := if o.draw_outline then
      [Node.circle doc.cx doc.cy r_outer
        { stroke := "#000000", strokeWidth := mmToUu doc (o.outline_stroke_mm : ℝ),
          strokeOpacity := 1 }]
    else []
  Node.group gid none none ([Node.group (gid ++ "-pattern") none clipRef layerNodes] ++ outline)

/-- `DialPatternGenerator.effect`, as a pure function of the document, the
options, the seeded random stream and the uuid fragment drawn for the clip
id.  `none` models the non-terminating concentric loop. -/
noncomputable def effect (doc : Doc) (o : Options) (rng : Rng)
    (uuidHex6 : String) : Option Node :=
  (effectLayers doc o rng).map (assembleRoot doc o uuidHex6)

/-- Erase a group's clip-path reference (identity on leaf shapes). -/
def clearClip : Node → Node
  | .group i t _ ch => .group i t none ch
  | n => n

/-- Erase the clip-path reference of the pattern group — the first child of
the root group.  This is the only place the output tree mentions the
uuid-derived clip id, so comparing two runs' trees under this map compares
everything except that id. -/
def stripPatternClip : Node → Node
  | .group i t c (pg :: rest) => .group i t c (clearClip pg :: rest)
  | n => n

/-- Read the clip-path reference of the pattern group of an output tree. -/
def patternClipRef : Option Node → Option String
  | some (.group _ _ _ (.group _ _ c _ :: _)) => c
  | _ => none

/-- Any radius list produced by the concentric loop with positive spacing is
the arithmetic progression from its starting radius, every emitted radius is
at most `r_outer + 1e-9`, and the next radius past the end of the list would
exceed that bound. -/
theorem concRadiiFuel_pos_spec {α : Type} [LinearOrderedField α]
    {spacing : α} :
    ∀ (fuel : ℕ) (r0 r_outer : α) (l : List α),
      concRadiiFuel fuel r0 r_outer spacing = some l →
      (∀ k : ℕ, ∀ h : k < l.length, l.get ⟨k, h⟩ = r0 + (k : α) * spacing) ∧
      (∀ r ∈ l, r ≤ r_outer + 1 / 1000000000) ∧
      r_outer + 1 / 1000000000 < r0 + (l.length : α) * spacing := by
  intro fuel
  induction fuel with
  | zero => intro r0 r_outer l h; simp [concRadiiFuel] at h
  | succ n ih =>
    intro r0 r_outer l h
    simp only [concRadiiFuel] at h
    by_cases hr : r0 ≤ r_outer + 1 / 1000000000
    · rw [if_pos hr] at h
      cases hrec : concRadiiFuel n (r0 + spacing) r_outer spacing with
      | none => rw [hrec] at h; simp at h
      | some rest =>
        rw [hrec] at h
        obtain ⟨ih1, ih2, ih3⟩ := ih (r0 + spacing) r_outer rest hrec
        simp only [Option.some.injEq] at h
        subst h
        refine ⟨?_, ?_, ?_⟩
        · intro k hk
          cases k with
          | zero => simp
          | succ k2 =>
            have hk2 : k2 < rest.length := by simpa using hk
            have := ih1 k2 hk2
            simp only [List.get_cons_succ, this]
            push_cast
            ring
        · intro r hrmem
          rcases List.mem_cons.mp hrmem with rfl | hmem
          · exact hr
          · exact ih2 r hmem
        · have hlen : (((r0 :: rest).length : ℕ) : α) = (rest.length : α) + 1 := by
            push_cast [List.length_cons]
            ring
          calc r_outer + 1 / 1000000000
              < (r0 + spacing) + (rest.length : α) * spacing := ih3
            _ = r0 + ((rest.length : α) + 1) * spacing := by ring
            _ = r0 + (((r0 :: rest).length : ℕ) : α) * spacing := by rw [hlen]
    · rw [if_neg hr] at h
      simp only [Option.some.injEq] at h
      subst h
      refine ⟨by simp, by simp, ?_⟩
      simp only [List.length_nil, Nat.cast_zero, zero_mul, add_zero]
      linarith [not_le.mp hr]

/-- C3: for spacing ≤ 0 the concentric generator neither raises an
`InvalidParameter` error nor terminates — whenever the starting radius
(`max(0, r_inner)` in the source) is within the `r ≤ r_outer + 1e-9` bound,
the `while` loop of `pattern_concentric` never exits: no fuel is enough.
The source has no error path at all here, contradicting the spec's stated
`InvalidParameter` behaviour; the generator diverges, emitting circles
without bound. -/
theorem concentric_nonpositive_spacing_diverges
    (fuel : ℕ) (r0 r_outer spacing : ℚ)
    (hsp : spacing ≤ 0) (hr : r0 ≤ r_outer + 1 / 1000000000) :
    concRadiiFuel fuel r0 r_outer spacing = none := by
  induction fuel generalizing r0 with
  | zero => rfl
  | succ n ih =>
    have hrec : concRadiiFuel n (r0 + spacing) r_outer spacing = none :=
      ih _ (by linarith)
    simp only [concRadiiFuel, if_pos hr, hrec]

/-- Witness for C3 at the concrete failing input `outer = 10`, `inner = 0`,
`spacing = 0`: the loop is still running after any number of iterations. -/
theorem concentric_nonpositive_spacing_diverges_witness :
    concRadiiFuel (α := ℚ) 7 0 10 0 = none :=
  concentric_nonpositive_spacing_diverges 7 0 10 0 (by norm_num) (by norm_num)

/-- C9: the concentric generator at `outer = 10`, `inner = 0` emits exactly
the radii `[0,2,4,6,8,10]` for `spacing = 2` (6 circles) and `[0,3,6,9]` for
`spacing = 3` (4 circles); in general, any terminating run with positive
spacing starts at `max(0, inner_radius)`, increments by `spacing`, includes
every step radius up to `r_outer + 1e-9`, and the next radius would exceed
that bound. -/
theorem concentric_ring_radii :
    concRadiiFuel (α := ℚ) 8 (max 0 0) 10 2 = some [0, 2, 4, 6, 8, 10] ∧
    concRadiiFuel (α := ℚ) 8 (max 0 0) 10 3 = some [0, 3, 6, 9] ∧
    ∀ (fuel : ℕ) (r_outer r_inner spacing : ℚ) (l : List ℚ),
      0 < spacing →
      concRadiiFuel fuel (max 0 r_inner) r_outer spacing = some l →
      (∀ k : ℕ, ∀ h : k < l.length,
        l.get ⟨k, h⟩ = max 0 r_inner + (k : ℚ) * spacing) ∧
      (∀ r ∈ l, r ≤ r_outer + 1 / 1000000000) ∧
      r_outer + 1 / 1000000000 < max 0 r_inner + (l.length : ℚ) * spacing := by
  refine ⟨by norm_num [concRadiiFuel], by norm_num [concRadiiFuel], ?_⟩
  intro fuel r_outer r_inner spacing l _ h
  exact concRadiiFuel_pos_spec fuel (max 0 r_inner) r_outer l h

/-- Witness for C9: the general characterization instantiated at the
`spacing = 2` run. -/
theorem concentric_ring_radii_witness :
    (∀ r ∈ ([0, 2, 4, 6, 8, 10] : List ℚ), r ≤ 10 + 1 / 1000000000) ∧
    (10 + 1 / 1000000000 : ℚ) <
      max 0 0 + (([0, 2, 4, 6, 8, 10] : List ℚ).length : ℚ) * 2 := by
  obtain ⟨-, h2, h3⟩ :=
    concentric_ring_radii.2.2 8 10 0 2 [0, 2, 4, 6, 8, 10] (by norm_num)
      concentric_ring_radii.1
  exact ⟨h2, h3⟩

/-- C7 counterexample: a guilloché sample radius can be negative.  With
`r_outer = 1`, `amplitude = 2`, `lobes = 2`, `points = 200`, sample 50 sits
at `t = π/2`, where the radius is `max(0, 1-2) + 2·cos(π) = -2 < 0`: only
the mean radius is clamped to 0, not the per-sample radii, refuting the
claim for arbitrary amplitude. -/
theorem guilloche_negative_sample_radius : guilSampleR 1 2 2 200 50 < 0 := by
  have hl : guilLobes 2 = 2 := rfl
  have hp : guilPoints 200 = 200 := rfl
  simp only [guilSampleR, hl, hp]
  have harg : ((2 : ℤ) : ℝ) * ((2 * Real.pi) * ((50 : ℕ) / ((200 : ℕ) : ℝ))) =
      Real.pi := by
    push_cast
    ring
  rw [harg, Real.cos_pi]
  norm_num

/-- C7 (amended): every radius emitted by a terminating concentric run with
positive spacing is non-negative, and every guilloché sample radius is
non-negative provided `0 ≤ amplitude ≤ r_outer - amplitude` (the claim as
stated fails for larger amplitudes, see the counterexample). -/
theorem emitted_radii_nonneg :
    (∀ (fuel : ℕ) (r_outer r_inner spacing : ℚ) (l : List ℚ),
      0 < spacing →
      concRadiiFuel fuel (max 0 r_inner) r_outer spacing = some l →
      ∀ r ∈ l, 0 ≤ r) ∧
    (∀ (r_outer : ℝ) (lobes : ℤ) (amplitude : ℝ) (points : ℤ) (i : ℕ),
      0 ≤ amplitude → 2 * amplitude ≤ r_outer →
      0 ≤ guilSampleR r_outer lobes amplitude points i) := by
  constructor
  · intro fuel r_outer r_inner spacing l hsp h r hmem
    obtain ⟨h1, -, -⟩ :=
      concRadiiFuel_pos_spec fuel (max 0 r_inner) r_outer l h
    obtain ⟨k, hk⟩ := List.get_of_mem hmem
    have hval := h1 k.1 k.2
    rw [hk] at hval
    have hk0 : (0 : ℚ) ≤ (k.1 : ℚ) * spacing :=
      mul_nonneg (Nat.cast_nonneg _) hsp.le
    have hmax : (0 : ℚ) ≤ max 0 r_inner := le_max_left 0 r_inner
    linarith
  · intro r_outer lobes amplitude points i hA hr
    simp only [guilSampleR]
    have hcos := Real.neg_one_le_cos
      ((guilLobes lobes : ℝ) * ((2 * Real.pi) * ((i : ℝ) / (guilPoints points : ℝ))))
    have h2 := mul_le_mul_of_nonneg_left hcos hA
    have h1 : amplitude ≤ max 0 (r_outer - amplitude) :=
      le_max_of_le_right (by linarith)
    nlinarith [h1, h2]

/-- Witness for C7 (amended): both parts at concrete inputs — the radii of
the `spacing = 2` run are non-negative, and a guilloché sample radius with
`amplitude = 2 ≤ r_outer/2 = 5` is non-negative. -/
theorem emitted_radii_nonneg_witness :
    (∀ r ∈ ([0, 2, 4, 6, 8, 10] : List ℚ), 0 ≤ r) ∧
    0 ≤ guilSampleR 10 3 2 300 7 :=
  ⟨emitted_radii_nonneg.1 8 10 0 2 [0, 2, 4, 6, 8, 10] (by norm_num)
      (by norm_num [concRadiiFuel]),
    emitted_radii_nonneg.2 10 3 2 300 7 (by norm_num) (by norm_num)⟩

/-- C2 counterexample: `pattern_guilloche` with `lobes = 1 < 2` and
`points = 100 < 200` does not fail with `InvalidParameter` — it has no error
path at all.  The clamps `lobes = max(2, lobes)` and `points = max(200,
points)` apply and geometry is silently produced: a polyline with 201 sample
points. -/
theorem guilloche_invalid_params_produce_geometry :
    guilLobes 1 = 2 ∧ guilPoints 100 = 200 ∧
    (guillochePts 0 0 10 1 1 100).length = 201 := by
  refine ⟨rfl, rfl, ?_⟩
  simp [guillochePts, guilPoints]

/-- C2 (amended): the guilloché generator clamps — it never errors: for any
lobe and point arguments it emits one polyline with `max(200, points) + 1`
sample points, using a lobe count of at least 2 and a point count of at
least 200. -/
theorem guilloche_clamps_lobes_and_points (cx cy r_outer : ℝ) (lobes : ℤ)
    (amplitude : ℝ) (points : ℤ) :
    (guillochePts cx cy r_outer lobes amplitude points).length =
      guilPoints points + 1 ∧
    2 ≤ guilLobes lobes ∧ 200 ≤ guilPoints points := by
  refine ⟨by simp [guillochePts], le_max_left 2 lobes, ?_⟩
  unfold guilPoints
  omega

/-- C10: for `points = 360` the guilloché generator emits exactly 361 sample
points on one polyline, the first and last of which coincide exactly (hence
within the claimed 1e-6 tolerance): the sample radius at `t = 2π` equals the
radius at `t = 0`, and the converted Cartesian points are equal. -/
theorem guilloche_closure (cx cy r_outer amplitude : ℝ) (lobes : ℤ) :
    (guillochePts cx cy r_outer lobes amplitude 360).length = 361 ∧
    (guillochePts cx cy r_outer lobes amplitude 360).head? =
      (guillochePts cx cy r_outer lobes amplitude 360).getLast? ∧
    guilSampleR r_outer lobes amplitude 360 360 =
      guilSampleR r_outer lobes amplitude 360 0 ∧
    |guilSampleR r_outer lobes amplitude 360 360 -
        guilSampleR r_outer lobes amplitude 360 0| ≤ 1 / 1000000 := by
  have hp : guilPoints 360 = 360 := rfl
  have hR : guilSampleR r_outer lobes amplitude 360 360 =
      guilSampleR r_outer lobes amplitude 360 0 := by
    simp only [guilSampleR, hp]
    have h1 : ((guilLobes lobes : ℤ) : ℝ) *
        ((2 * Real.pi) * (((360 : ℕ) : ℝ) / ((360 : ℕ) : ℝ))) =
        ((guilLobes lobes : ℤ) : ℝ) * (2 * Real.pi) := by norm_num
    have h0 : ((guilLobes lobes : ℤ) : ℝ) *
        ((2 * Real.pi) * (((0 : ℕ) : ℝ) / ((360 : ℕ) : ℝ))) = 0 := by norm_num
    rw [h1, h0, Real.cos_zero, Real.cos_int_mul_two_pi]
  refine ⟨by simp [guillochePts, hp], ?_, hR, by rw [hR, sub_self, abs_zero]; norm_num⟩
  have hhead : (List.range (guilPoints 360 + 1)).head? = some 0 := by
    rw [List.range_succ_eq_map]
    rfl
  have hlast : (List.range (guilPoints 360 + 1)).getLast? =
      some (guilPoints 360) := by
    rw [List.range_succ, List.getLast?_concat]
  rw [guillochePts, List.head?_map, List.getLast?_map, hhead, hlast]
  simp only [Option.map_some']
  congr 1
  have hdeg : ∀ x : ℝ, (x * (180 / Real.pi)) * (Real.pi / 180) = x := by
    intro x
    have hpi := Real.pi_ne_zero
    field_simp
  simp only [polar]
  have ha0 : ((2 * Real.pi) * (((0 : ℕ) : ℝ) / ((guilPoints 360 : ℕ) : ℝ))) *
      (180 / Real.pi) * (Real.pi / 180) = 0 := by
    rw [hdeg]
    norm_num
  have ha1 : ((2 * Real.pi) * (((guilPoints 360 : ℕ) : ℝ) /
      ((guilPoints 360 : ℕ) : ℝ))) * (180 / Real.pi) * (Real.pi / 180) =
      2 * Real.pi := by
    rw [hdeg, hp]
    norm_num
  rw [ha0, ha1, Real.sin_zero, Real.cos_zero, Real.sin_two_pi, Real.cos_two_pi,
    hp, hR]

/-- C4 counterexample: at `base_points = 1206`, layer `i = 1`, the code's
`int()` truncation gives `max(800, int(1206 × 1.1)) = 1326`, while the
claimed round-to-nearest formula gives `max(800, round(1326.6)) = 1327`. -/
theorem points_auto_truncates_not_rounds :
    pointsAuto 1206 1 = 1326 ∧
    max 800 (round ((1206 : ℚ) * (1 + (1 / 10) * 1))) = 1327 ∧
    pointsAuto 1206 1 ≠ max 800 (round ((1206 : ℚ) * (1 + (1 / 10) * 1))) := by
  refine ⟨by norm_num [pointsAuto, pyint], by norm_num [round_eq], ?_⟩
  norm_num [pointsAuto, pyint, round_eq]

/-- C4 (amended): for a non-negative base point count, the auto-complex
resolved point count of a guilloché layer whose plan entry does not fix
`points` is `max(800, ⌊base_points × (1 + 0.10 × i)⌋)` — Python `int()`
truncation (= floor for the non-negative product), not rounding to
nearest. -/
theorem points_auto_floor (p0 : ℤ) (i : ℕ) (hp : 0 ≤ p0) :
    pointsAuto p0 i = max 800 ⌊(p0 : ℚ) * (1 + (1 / 10) * (i : ℚ))⌋ := by
  have hp' : (0 : ℚ) ≤ (p0 : ℚ) := by exact_mod_cast hp
  have hx : (0 : ℚ) ≤ (p0 : ℚ) * (1 + (1 / 10) * (i : ℚ)) := by positivity
  rw [pointsAuto, pyint, if_pos hx]

/-- Witness for C4 (amended) at `base_points = 1206`, `i = 1`. -/
theorem points_auto_floor_witness :
    pointsAuto 1206 1 = max 800 ⌊(1206 : ℚ) * (1 + (1 / 10) * ((1 : ℕ) : ℚ))⌋ :=
  points_auto_floor 1206 1 (by norm_num)

/-- C6 counterexample: with decay factors in (0,1) but a negative base
stroke width (the option record accepts `stroke_mm < 0`), the per-layer
stroke width strictly increases from layer 0 to layer 1, refuting the
claimed monotonicity for arbitrary option records. -/
theorem layer_stroke_not_monotone_for_negative_base :
    (0 : ℚ) < 1 / 2 ∧ (1 / 2 : ℚ) < 1 ∧
    ¬ layerStroke (-1 : ℚ) (1 / 2) (0 + 1) ≤ layerStroke (-1 : ℚ) (1 / 2) 0 := by
  refine ⟨by norm_num, by norm_num, ?_⟩
  norm_num [layerStroke]

/-- C6 (amended): with decay factors in (0,1) and a non-negative base
stroke width, the per-layer stroke width and opacity are non-increasing
from each layer to the next, and every layer's opacity lies in
[0.02, 1.0].  (The opacity clauses hold for any base opacity; only the
stroke clause needs the non-negative base.) -/
theorem layer_decay_monotone {α : Type} [LinearOrderedField α]
    (sb ob ds de : α) (i : ℕ) (hsb : 0 ≤ sb)
    (hds0 : 0 < ds) (hds1 : ds < 1) (hde0 : 0 < de) (hde1 : de < 1) :
    layerStroke sb ds (i + 1) ≤ layerStroke sb ds i ∧
    layerOpacity ob de (i + 1) ≤ layerOpacity ob de i ∧
    1 / 50 ≤ layerOpacity ob de i ∧ layerOpacity ob de i ≤ 1 := by
  refine ⟨?_, ?_, le_max_left _ _, max_le (by norm_num) (min_le_left _ _)⟩
  · exact mul_le_mul_of_nonneg_left
      (pow_le_pow_of_le_one hds0.le hds1.le (Nat.le_succ i)) hsb
  · rcases le_or_lt 0 ob with hob | hob
    · have hx : ob * de ^ (i + 1) ≤ ob * de ^ i :=
        mul_le_mul_of_nonneg_left
          (pow_le_pow_of_le_one hde0.le hde1.le (Nat.le_succ i)) hob
      exact max_le_max le_rfl (min_le_min le_rfl hx)
    · have hx1 : ob * de ^ (i + 1) < 0 :=
        mul_neg_of_neg_of_pos hob (pow_pos hde0 _)
      have hx2 : ob * de ^ i < 0 := mul_neg_of_neg_of_pos hob (pow_pos hde0 _)
      rw [layerOpacity, layerOpacity,
        min_eq_right (hx1.le.trans zero_le_one),
        min_eq_right (hx2.le.trans zero_le_one),
        max_eq_left (hx1.le.trans (by norm_num)),
        max_eq_left (hx2.le.trans (by norm_num))]

/-- Witness for C6 (amended) at base stroke 1, base opacity 1, both decays
1/2, layer 0. -/
theorem layer_decay_monotone_witness :
    layerStroke (1 : ℚ) (1 / 2) (0 + 1) ≤ layerStroke (1 : ℚ) (1 / 2) 0 ∧
    layerOpacity (1 : ℚ) (1 / 2) (0 + 1) ≤ layerOpacity (1 : ℚ) (1 / 2) 0 ∧
    1 / 50 ≤ layerOpacity (1 : ℚ) (1 / 2) 0 ∧ layerOpacity (1 : ℚ) (1 / 2) 0 ≤ 1 :=
  layer_decay_monotone 1 1 (1 / 2) (1 / 2) 0 (by norm_num) (by norm_num)
    (by norm_num) (by norm_num) (by norm_num)

/-- C5 counterexample: with `r_outer = 10` (size = 22) and `spacing = 11`,
`count = int(22/11) + 3 = 5` is odd and the Python offset range
`range(-5 // 2, 5 // 2 + 1) = range(-3, 3)` is asymmetric: the offset `-33`
is emitted but its negation `33` is not, refuting the claimed symmetry. -/
theorem crosshatch_offsets_asymmetric :
    (-33 : ℚ) ∈ crossOffsets ((10 : ℚ) * 2.2) 11 ∧
    (33 : ℚ) ∉ crossOffsets ((10 : ℚ) * 2.2) 11 := by
  have h : crossOffsets ((10 : ℚ) * 2.2) 11 = [-33, -22, -11, 0, 11, 22] := by
    have h1 : Int.fdiv (-5) 2 = -3 := by decide
    have h2 : Int.fdiv 5 2 = 2 := by decide
    have h3 : (6 : ℤ).toNat = 6 := rfl
    norm_num [crossOffsets, pyint, h1, h2, h3, List.range_succ]
  rw [h]
  norm_num

/-- C5 (amended): for positive size and spacing, each crosshatch family
draws `count + 1` lines where `count = ⌊size/spacing⌋ + 3`, at offsets
`i · spacing` for exactly the integers `i` with
`-count // 2 ≤ i < count // 2 + 1` (Python floor division); this offset
range is symmetric around 0 when `count` is even, while for odd `count` the
extreme negative offset has no positive partner (see the counterexample). -/
theorem crosshatch_offsets_spec (size spacing : ℚ) (count : ℤ)
    (hsz : 0 < size) (hsp : 0 < spacing)
    (hc : count = ⌊size / spacing⌋ + 3) :
    (crossOffsets size spacing).length = (count + 1).toNat ∧
    (∀ d ∈ crossOffsets size spacing, ∃ i : ℤ,
      Int.fdiv (-count) 2 ≤ i ∧ i < Int.fdiv count 2 + 1 ∧
      d = (i : ℚ) * spacing) ∧
    (count % 2 = 0 → ∀ d ∈ crossOffsets size spacing,
      -d ∈ crossOffsets size spacing) := by
  have hq : (0 : ℚ) ≤ size / spacing := by positivity
  have hpy : pyint (size / spacing) = ⌊size / spacing⌋ := if_pos hq
  have hcnt : pyint (size / spacing) + 3 = count := by rw [hpy, hc]
  have h3 : 3 ≤ count := by
    have : (0 : ℤ) ≤ ⌊size / spacing⌋ := Int.floor_nonneg.mpr hq
    omega
  have hstart : Int.fdiv (-count) 2 = (-count) / 2 :=
    Int.fdiv_eq_ediv _ (by norm_num)
  have hstop : Int.fdiv count 2 = count / 2 :=
    Int.fdiv_eq_ediv _ (by norm_num)
  simp only [crossOffsets, hcnt]
  rw [hstart, hstop]
  refine ⟨?_, ?_, ?_⟩
  · simp only [List.length_map, List.length_range]
    omega
  · intro d hd
    simp only [List.mem_map, List.mem_range] at hd
    obtain ⟨j, hj, hdj⟩ := hd
    refine ⟨-count / 2 + (j : ℤ), by omega, by omega, hdj.symm⟩
  · intro he d hd
    simp only [List.mem_map, List.mem_range] at hd ⊢
    obtain ⟨j, hj, hdj⟩ := hd
    refine ⟨(count - (j : ℤ)).toNat, by omega, ?_⟩
    have hiz : -count / 2 + ((count - (j : ℤ)).toNat : ℤ) =
        -(-count / 2 + (j : ℤ)) := by omega
    have hcast : ((-count / 2 + ((count - (j : ℤ)).toNat : ℤ) : ℤ) : ℚ) =
        -((-count / 2 + (j : ℤ) : ℤ) : ℚ) := by
      rw [hiz]
      push_cast
      ring
    rw [hcast, ← hdj]
    ring

/-- Witness for C5 (amended) at `size = 22`, `spacing = 7` (`count = 6`,
even): 7 lines per family and a symmetric offset range. -/
theorem crosshatch_offsets_spec_witness :
    (crossOffsets (22 : ℚ) 7).length = ((6 : ℤ) + 1).toNat ∧
    (∀ d ∈ crossOffsets (22 : ℚ) 7, -d ∈ crossOffsets (22 : ℚ) 7) := by
  obtain ⟨h1, -, h3⟩ := crosshatch_offsets_spec 22 7 6 (by norm_num)
    (by norm_num) (by norm_num)
  exact ⟨h1, h3 (by norm_num)⟩

/-- C8: for the `breguet` preset the effective layer count is
`max(max(1, requested), 4)` — a requested layer count below the preset's
minimum of 4 is raised to 4 — and the plan entries are, in order,
Concentric, Guilloché, Sunburst, Guilloché (layer `i` uses plan entry
`i mod 4`, so requesting 1 layer yields those four kinds in order). -/
theorem breguet_layer_minimum (doc : Doc) (o : Options) (rng : Rng)
    (hp : presetOf o = "breguet") :
    layersResolved o = max (max 1 o.layers).toNat 4 ∧
    (o.layers ≤ 1 → layersResolved o = 4) ∧
    (planFor doc o rng (layersResolved o)).map Prod.fst =
      ["concentric", "guilloche", "sunburst", "guilloche"] := by
  have h1 : layersResolved o = max (max 1 o.layers).toNat 4 := by
    rw [layersResolved, if_pos (Or.inl hp)]
  refine ⟨h1, fun hl => ?_, ?_⟩
  · rw [h1]
    omega
  · simp [planFor, hp]

/-- Witness for C8: `preset = "breguet"`, requested layer count 1 yields an
effective layer count of 4 and plan kinds
[concentric, guilloche, sunburst, guilloche]. -/
theorem breguet_layer_minimum_witness :
    layersResolved { complex_preset := "breguet", layers := 1 } = 4 ∧
    (planFor ⟨0, 0, 1⟩ { complex_preset := "breguet", layers := 1 }
        ⟨fun _ _ _ => 0, fun _ _ _ => 0⟩
        (layersResolved { complex_preset := "breguet", layers := 1 })).map
      Prod.fst = ["concentric", "guilloche", "sunburst", "guilloche"] := by
  have hp : presetOf { complex_preset := "breguet", layers := 1 } = "breguet" := by
    decide
  obtain ⟨-, h2, h3⟩ := breguet_layer_minimum ⟨0, 0, 1⟩
    { complex_preset := "breguet", layers := 1 }
    ⟨fun _ _ _ => 0, fun _ _ _ => 0⟩ hp
  exact ⟨h2 (by norm_num), h3⟩

/-- C1 counterexample: two independent runs with identical document,
options and seed draw different uuid4 fragments for the clip-path id, and
the resulting trees are not identical: the pattern group's clip reference
embeds the fresh uuid, so the output is not byte-identical across runs
when clipping is enabled. -/
theorem generate_not_byte_identical :
    effect ⟨0, 0, 1⟩ { group_name := "g" } ⟨fun _ _ _ => 0, fun _ _ _ => 0⟩
        "aaaaaa" ≠
      effect ⟨0, 0, 1⟩ { group_name := "g" } ⟨fun _ _ _ => 0, fun _ _ _ => 0⟩
        "bbbbbb" := by
  intro h
  have h2 := congrArg patternClipRef h
  have ha : patternClipRef (effect ⟨0, 0, 1⟩ { group_name := "g" }
      ⟨fun _ _ _ => 0, fun _ _ _ => 0⟩ "aaaaaa") =
      some ("g" ++ "-clip-" ++ "aaaaaa") := rfl
  have hb : patternClipRef (effect ⟨0, 0, 1⟩ { group_name := "g" }
      ⟨fun _ _ _ => 0, fun _ _ _ => 0⟩ "bbbbbb") =
      some ("g" ++ "-clip-" ++ "bbbbbb") := rfl
  rw [ha, hb] at h2
  exact absurd h2 (by decide)

/-- C1 (amended): a run's output is a pure function of the document, the
options and the seeded random stream, except for the uuid-derived clip-path
reference id: two runs with the same document, options and seed produce
trees that agree exactly once the pattern group's clip reference is erased —
in particular the same shape nodes, the same coordinates and the same child
order, whatever uuid fragments the two runs draw. -/
theorem generate_deterministic_up_to_clip_id (doc : Doc) (o : Options)
    (rng : Rng) (u1 u2 : String) :
    (effect doc o rng u1).map stripPatternClip =
      (effect doc o rng u2).map stripPatternClip := by
  rw [effect, effect, Option.map_map, Option.map_map]
  cases effectLayers doc o rng with
  | none => rfl
  | some layerNodes =>
    simp [Function.comp, assembleRoot, stripPatternClip, clearClip]

end WatchDial
